import Mathlib

/-
Verification development for the pc-price-tracker bot.

Shallow embedding of the price-analysis and alert-deduplication core:
  - src/telegram_amazon_bot/price_analyzer.py  (PriceAnalyzer)
  - src/bot.py / src/schedulers/global_scanner.py  (scan_amazon_globally)
  - src/bot.py / src/schedulers/price_checker.py   (check_prices)
  - src/database.py (update_product_price, add_big_deal, add_price_error,
    get_all_big_deals, get_price_errors)

Python floats are modelled as rationals; Python None-able values as Option;
Python truthiness of a numeric value v is modelled explicitly as v being
neither None nor zero.  Timestamps are integers counting seconds.
-/

set_option autoImplicit false

namespace PcPriceTracker

/-- The error_type values produced by PriceAnalyzer.analyze_price. -/
inductive ErrorType where
  | price_too_low
  | price_below_expected
  | suspicious_drop
  | price_too_high
deriving DecidableEq, Repr

/-- The result dictionary of PriceAnalyzer.analyze_price
(keys is_big_discount, is_price_error, discount_percent, error_type,
confidence). -/
structure AnalysisResult where
  is_big_discount : Bool
  is_price_error : Bool
  discount_percent : Option ℚ
  error_type : Option ErrorType
  confidence : ℚ
deriving DecidableEq, Repr

/-- Threshold configuration of PriceAnalyzer.__init__ with its default
values (price_analyzer.py lines 14-28). -/
structure PriceAnalyzer where
  big_discount_threshold : ℚ := 30
  price_error_threshold : ℚ := 1/2
  min_price_for_error : ℚ := 10
deriving DecidableEq, Repr

/-- A PriceAnalyzer built with all defaults, as in PriceAnalyzer(). -/
def defaultAnalyzer : PriceAnalyzer := {}

/-- The freshly initialised result dictionary of analyze_price
(price_analyzer.py lines 49-55). -/
def initResult : AnalysisResult :=
  { is_big_discount := false
    is_price_error := false
    discount_percent := none
    error_type := none
    confidence := 0 }

/-- Block 1 of analyze_price (price_analyzer.py lines 57-65): detect big
discounts.  The Python truthiness test on original_price is rendered as
the value being present and nonzero. -/
def analyzeBig (A : PriceAnalyzer) (current_price : ℚ)
    (original_price : Option ℚ) : AnalysisResult :=
  match original_price with
  | some op =>
    if op ≠ 0 ∧ op > current_price then
      if (op - current_price) / op * 100 ≥ A.big_discount_threshold then
        { initResult with
            discount_percent := some ((op - current_price) / op * 100)
            is_big_discount := true
            confidence := min ((op - current_price) / op * 100 / 100) 1 }
      else
        { initResult with
            discount_percent := some ((op - current_price) / op * 100) }
    else initResult
  | none => initResult

/-- Block 2 of analyze_price (price_analyzer.py lines 67-97): the
if / elif / elif price-error chain, updating the result r of block 1.
Truthiness of last_price is rendered as presence plus nonzero. -/
def analyzeErr (A : PriceAnalyzer) (current_price : ℚ)
    (last_price : Option ℚ) (expected_price_range : Option (ℚ × ℚ))
    (r : AnalysisResult) : AnalysisResult :=
  if current_price < A.min_price_for_error then
    { r with is_price_error := true
             error_type := some ErrorType.price_too_low
             confidence := 9/10 }
  else
    match expected_price_range with
    | some (min_expected, _max_expected) =>
      if current_price < min_expected * A.price_error_threshold then
        { r with is_price_error := true
                 error_type := some ErrorType.price_below_expected
                 confidence := 8/10 }
      else r
    | none =>
      match last_price with
      | some lp =>
        if lp ≠ 0 ∧ current_price < lp * A.price_error_threshold then
          if (lp - current_price) / lp * 100 > 50 then
            { r with is_price_error := true
                     error_type := some ErrorType.suspicious_drop
                     confidence := 7/10 }
          else r
        else r
      | none => r

/-- Block 3 of analyze_price (price_analyzer.py lines 99-109): the
independent abnormally-high-price check, which overwrites the error
fields set by block 2. -/
def analyzeHigh (current_price : ℚ)
    (expected_price_range : Option (ℚ × ℚ)) (r : AnalysisResult) :
    AnalysisResult :=
  match expected_price_range with
  | some (_min_expected, max_expected) =>
    if current_price > max_expected * 2 then
      { r with is_price_error := true
               error_type := some ErrorType.price_too_high
               confidence := 6/10 }
    else r
  | none => r

/-- Embedding of PriceAnalyzer.analyze_price (price_analyzer.py lines
30-111): the three blocks applied in source order to the initial result
dictionary. -/
def analyze_price (A : PriceAnalyzer) (current_price : ℚ)
    (original_price : Option ℚ) (last_price : Option ℚ)
    (expected_price_range : Option (ℚ × ℚ)) : AnalysisResult :=
  analyzeHigh current_price expected_price_range
    (analyzeErr A current_price last_price expected_price_range
      (analyzeBig A current_price original_price))

/-! Embedding of PriceAnalyzer.get_expected_price_range
(price_analyzer.py lines 113-161). -/

/-- Test whether the first list is an initial segment of the second. -/
def strStarts : List Char → List Char → Bool
  | [], _ => true
  | _ :: _, [] => false
  | a :: as, b :: bs => a == b && strStarts as bs

/-- Python-style containment test: the needle occurs contiguously in the
haystack (the operator in of Python strings). -/
def hasSub (needle : List Char) : List Char → Bool
  | [] => strStarts needle []
  | c :: rest => strStarts needle (c :: rest) || hasSub needle rest

/-- The keyword table of get_expected_price_range (price_analyzer.py
lines 127-155), in the source's insertion order, which Python dict
iteration preserves. -/
def price_ranges : List (List Char × ℚ × ℚ) :=
  [("ryzen 9".toList, 400, 800),
   ("ryzen 7".toList, 250, 500),
   ("core i9".toList, 400, 800),
   ("core i7".toList, 250, 500),
   ("core i5".toList, 150, 350),
   ("rtx 4090".toList, 1500, 2500),
   ("rtx 4080".toList, 1000, 1500),
   ("rtx 4070".toList, 600, 900),
   ("rtx 4060".toList, 300, 500),
   ("rx 7900".toList, 800, 1200),
   ("rx 7800".toList, 500, 800),
   ("rx 7700".toList, 400, 600),
   ("32gb".toList, 100, 300),
   ("16gb".toList, 50, 200),
   ("ddr5".toList, 80, 400),
   ("ddr4".toList, 50, 200),
   ("2tb".toList, 100, 300),
   ("1tb".toList, 50, 200),
   ("nvme".toList, 60, 400),
   ("ssd".toList, 40, 300)]

/-- The first-match loop of get_expected_price_range (price_analyzer.py
lines 157-159). -/
def findRange (title_lower : List Char) :
    List (List Char × ℚ × ℚ) → Option (ℚ × ℚ)
  | [] => none
  | (kw, mn, mx) :: rest =>
    if hasSub kw title_lower then some (mn, mx)
    else findRange title_lower rest

/-- Embedding of PriceAnalyzer.get_expected_price_range: lower-case the
title and return the range of the first keyword contained in it, none
when no keyword matches.  The category parameter of the source is unused
there and omitted here.  Char.toLower agrees with Python str.lower on the
ASCII keywords of the table. -/
def get_expected_price_range (product_title : List Char) : Option (ℚ × ℚ) :=
  findRange (product_title.map Char.toLower) price_ranges

/-- Specification-side predicate: the needle occurs as a contiguous
substring of the haystack. -/
def SubstrOf (needle hay : List Char) : Prop :=
  ∃ pre post, hay = pre ++ needle ++ post

/-! Embedding of the alert-record tables of src/database.py and of the
24h deduplication logic of scan_amazon_globally (src/bot.py lines
2125-2245, src/schedulers/global_scanner.py lines 63-183).  Tables are
lists of rows; INSERT OR REPLACE on the asin primary key is a cons after
removing the row with the same asin. -/

/-- A row of the price_errors table (database.py lines 121-131); asin is
the primary key. -/
structure ErrorRecord where
  asin : String
  price : ℚ
  error_type : ErrorType
  confidence : ℚ
  detected_at : ℤ
deriving DecidableEq, Repr

/-- A row of the big_deals table (database.py lines 107-118); asin is the
primary key. -/
structure DealRecord where
  asin : String
  original_price : ℚ
  current_price : ℚ
  discount_percent : ℚ
  detected_at : ℤ
deriving DecidableEq, Repr

/-- Database.add_price_error (database.py lines 360-371): INSERT OR
REPLACE keyed on asin. -/
def addErrorRecord (s : List ErrorRecord) (r : ErrorRecord) :
    List ErrorRecord :=
  r :: s.filter (fun x => x.asin != r.asin)

/-- Database.add_big_deal (database.py lines 318-329): INSERT OR REPLACE
keyed on asin. -/
def addDealRecord (s : List DealRecord) (r : DealRecord) :
    List DealRecord :=
  r :: s.filter (fun x => x.asin != r.asin)

/-- Database.get_price_errors with limit 1 and the default window of 2
days (database.py lines 373-387): among the records detected within the
last 172800 seconds, the single one with the highest confidence (ORDER BY
confidence DESC LIMIT 1).  Ties are resolved by list position; the SQL
sort leaves tie order unspecified, which the scan logic never depends
on. -/
def topRecentError (now : ℤ) (s : List ErrorRecord) : Option ErrorRecord :=
  (s.filter (fun r => now - r.detected_at ≤ 172800)).foldl
    (fun acc r =>
      match acc with
      | none => some r
      | some b => if r.confidence > b.confidence then some r else some b)
    none

/-- The price-error deduplication block of scan_amazon_globally (bot.py
lines 2152-2180, global_scanner.py lines 90-118): fetch the single
highest-confidence price error of the last 2 days, and suppress the new
event only when that record carries the same asin and is younger than
86400 seconds; otherwise insert-or-replace the record and count the
detection.  Returns the new table and whether the event was recorded. -/
def globalErrorGate (now : ℤ) (s : List ErrorRecord) (a : String)
    (p c : ℚ) (et : ErrorType) : List ErrorRecord × Bool :=
  match topRecentError now s with
  | some r =>
    if r.asin = a ∧ now - r.detected_at < 86400 then (s, false)
    else (addErrorRecord s ⟨a, p, et, c, now⟩, true)
  | none => (addErrorRecord s ⟨a, p, et, c, now⟩, true)

/-- The big-deal deduplication block of scan_amazon_globally (bot.py
lines 2184-2245, global_scanner.py lines 120-183): fetch all big-deal
records, look for the one with the same asin (unique, as asin is the
primary key), and suppress the new event when that record is younger
than 86400 seconds; otherwise insert-or-replace the record and count the
detection. -/
def globalDealGate (now : ℤ) (s : List DealRecord) (a : String)
    (op cp dp : ℚ) : List DealRecord × Bool :=
  match s.find? (fun r => r.asin == a) with
  | some r =>
    if now - r.detected_at < 86400 then (s, false)
    else (addDealRecord s ⟨a, op, cp, dp, now⟩, true)
  | none => (addDealRecord s ⟨a, op, cp, dp, now⟩, true)


/-! Embedding of the per-product branch of check_prices (src/bot.py
lines 2297-2472, src/schedulers/price_checker.py lines 24-172). -/

/-- The alert kinds one check_prices iteration can emit for one watched
product. -/
inductive Alert where
  | priceError (et : Option ErrorType)
  | bigDiscount
  | priceDrop
deriving DecidableEq, Repr

/-- The fields of the scraped product info that the per-product branch
of check_prices reads. -/
structure ProductInfo where
  title : List Char
  current_price : Option ℚ
  original_price : Option ℚ
deriving DecidableEq, Repr

/-- One iteration of the per-product loop of check_prices (bot.py lines
2313-2469) for a successfully scraped product: the stored last_price
baseline is read and then overwritten with the newly observed
current_price, the price is analysed, and at most one alert is chosen —
a price-error alert when the analysis flags an error, else a big-discount
alert when it flags a big discount, else an ordinary price-drop alert
when the (truthy) current price is strictly below the (truthy) old
baseline.  A missing current_price makes analyze_price raise a TypeError
in the source, caught by the per-product handler after the baseline was
already overwritten with None: no alert.  The chosen alert is sent to
every user watching the product, with no cooldown or alert-record
check.  Returns the new baseline and the alert. -/
def checkProductStep (A : PriceAnalyzer) (last_price : Option ℚ)
    (info : ProductInfo) : Option ℚ × Option Alert :=
  match info.current_price with
  | none => (none, none)
  | some cp =>
    let analysis := analyze_price A cp info.original_price last_price
      (get_expected_price_range info.title)
    if analysis.is_price_error then
      (some cp, some (Alert.priceError analysis.error_type))
    else if analysis.is_big_discount then
      (some cp, some Alert.bigDiscount)
    else
      match last_price with
      | some lp =>
        if cp ≠ 0 ∧ lp ≠ 0 ∧ cp < lp then (some cp, some Alert.priceDrop)
        else (some cp, none)
      | none => (some cp, none)

/-- The per-product new-discount decision of the category sweep of
check_prices (bot.py lines 2487-2507): known maps each previously seen
asin of the category to its recorded discount_percent, which the update
loop (line 2516) stores as a possibly-None value.  A product enters
discounted_products iff its discount_percent is truthy and positive; it
is then alerted iff its asin is unknown, or its discount is strictly
greater than the recorded one.  When the recorded discount is None the
source comparison raises a TypeError, aborting the category sweep:
modelled as none. -/
def categoryNewDiscount (known : List (String × Option ℚ)) (asin : String)
    (dp : Option ℚ) : Option Bool :=
  match dp with
  | none => some false
  | some d =>
    if d ≠ 0 ∧ d > 0 then
      match known.lookup asin with
      | none => some true
      | some (some k) => some (decide (d > k))
      | some none => none
    else some false

/-- The last_price and lowest_price columns of a row of the products
table (database.py lines 46-60); both are nullable. -/
structure ProductRow where
  last_price : Option ℚ
  lowest_price : Option ℚ
deriving DecidableEq, Repr

/-- Database.update_product_price for an existing product (database.py
lines 259-273): lowest_price becomes the minimum of the new price and
the stored lowest_price when that is present and truthy, else of the new
price with itself — Python: min(product.get('lowest_price', price) or
price, price) — and last_price becomes the new price.  The price_history
insert of the source does not affect the row. -/
def update_product_price (row : ProductRow) (price : ℚ) : ProductRow :=
  { last_price := some price
    lowest_price := some (min
      (match row.lowest_price with
        | none => price
        | some l => if l = 0 then price else l)
      price) }

/-- A sequence of update_product_price calls applied in order. -/
def updateSeq (row : ProductRow) (ps : List ℚ) : ProductRow :=
  ps.foldl update_product_price row

/-! Basic lemmas about the three blocks of analyze_price. -/

lemma analyzeBig_is_price_error (A : PriceAnalyzer) (cp : ℚ) (op : Option ℚ) :
    (analyzeBig A cp op).is_price_error = false := by
  rcases op with _ | o <;> simp only [analyzeBig] <;> (try split_ifs) <;> rfl

lemma analyzeErr_is_big (A : PriceAnalyzer) (cp : ℚ) (lp : Option ℚ)
    (er : Option (ℚ × ℚ)) (r : AnalysisResult) :
    (analyzeErr A cp lp er r).is_big_discount = r.is_big_discount := by
  rcases er with _ | ⟨mn, mx⟩ <;> rcases lp with _ | l <;>
    simp only [analyzeErr] <;> (try split_ifs) <;> rfl

lemma analyzeErr_discount (A : PriceAnalyzer) (cp : ℚ) (lp : Option ℚ)
    (er : Option (ℚ × ℚ)) (r : AnalysisResult) :
    (analyzeErr A cp lp er r).discount_percent = r.discount_percent := by
  rcases er with _ | ⟨mn, mx⟩ <;> rcases lp with _ | l <;>
    simp only [analyzeErr] <;> (try split_ifs) <;> rfl

lemma analyzeHigh_is_big (cp : ℚ) (er : Option (ℚ × ℚ)) (r : AnalysisResult) :
    (analyzeHigh cp er r).is_big_discount = r.is_big_discount := by
  rcases er with _ | ⟨mn, mx⟩ <;> simp only [analyzeHigh] <;> (try split_ifs) <;> rfl

lemma analyzeHigh_discount (cp : ℚ) (er : Option (ℚ × ℚ)) (r : AnalysisResult) :
    (analyzeHigh cp er r).discount_percent = r.discount_percent := by
  rcases er with _ | ⟨mn, mx⟩ <;> simp only [analyzeHigh] <;> (try split_ifs) <;> rfl

lemma analyzeErr_cases (A : PriceAnalyzer) (cp : ℚ) (lp : Option ℚ)
    (er : Option (ℚ × ℚ)) (r : AnalysisResult) :
    analyzeErr A cp lp er r = r ∨
    analyzeErr A cp lp er r =
      { r with is_price_error := true
               error_type := some ErrorType.price_too_low
               confidence := 9/10 } ∨
    analyzeErr A cp lp er r =
      { r with is_price_error := true
               error_type := some ErrorType.price_below_expected
               confidence := 8/10 } ∨
    analyzeErr A cp lp er r =
      { r with is_price_error := true
               error_type := some ErrorType.suspicious_drop
               confidence := 7/10 } := by
  rcases er with _ | ⟨mn, mx⟩ <;> rcases lp with _ | l <;>
    simp only [analyzeErr] <;> (try split_ifs) <;> simp

lemma analyzeHigh_cases (cp : ℚ) (er : Option (ℚ × ℚ)) (r : AnalysisResult) :
    analyzeHigh cp er r = r ∨
    analyzeHigh cp er r =
      { r with is_price_error := true
               error_type := some ErrorType.price_too_high
               confidence := 6/10 } := by
  rcases er with _ | ⟨mn, mx⟩ <;> simp only [analyzeHigh] <;> (try split_ifs) <;> simp

lemma analyzeErr_of_not_err (A : PriceAnalyzer) (cp : ℚ) (lp : Option ℚ)
    (er : Option (ℚ × ℚ)) (r : AnalysisResult)
    (h : (analyzeErr A cp lp er r).is_price_error = false) :
    analyzeErr A cp lp er r = r := by
  rcases analyzeErr_cases A cp lp er r with h1 | h1 | h1 | h1
  · exact h1
  all_goals rw [h1] at h; simp at h

lemma analyzeHigh_of_not_err (cp : ℚ) (er : Option (ℚ × ℚ))
    (r : AnalysisResult)
    (h : (analyzeHigh cp er r).is_price_error = false) :
    analyzeHigh cp er r = r := by
  rcases analyzeHigh_cases cp er r with h1 | h1
  · exact h1
  · rw [h1] at h; simp at h

lemma analyzeErr_of_lt (A : PriceAnalyzer) (cp : ℚ) (lp : Option ℚ)
    (er : Option (ℚ × ℚ)) (r : AnalysisResult)
    (h : cp < A.min_price_for_error) :
    analyzeErr A cp lp er r =
      { r with is_price_error := true
               error_type := some ErrorType.price_too_low
               confidence := 9/10 } := by
  simp only [analyzeErr]
  rw [if_pos h]

lemma analyzeHigh_none (cp : ℚ) (r : AnalysisResult) :
    analyzeHigh cp none r = r := rfl

lemma analyzeHigh_some_le (cp mn mx : ℚ) (r : AnalysisResult)
    (h : cp ≤ mx * 2) : analyzeHigh cp (some (mn, mx)) r = r := by
  simp only [analyzeHigh]
  rw [if_neg (not_lt.mpr h)]

lemma analyzeHigh_some_gt (cp mn mx : ℚ) (r : AnalysisResult)
    (h : mx * 2 < cp) :
    analyzeHigh cp (some (mn, mx)) r =
      { r with is_price_error := true
               error_type := some ErrorType.price_too_high
               confidence := 6/10 } := by
  simp only [analyzeHigh]
  rw [if_pos h]

lemma analyzeBig_is_big_iff (A : PriceAnalyzer) (cp : ℚ) (op : Option ℚ)
    (hcp : 0 < cp) :
    (analyzeBig A cp op).is_big_discount = true ↔
      ∃ o, op = some o ∧ cp < o ∧
        A.big_discount_threshold ≤ (o - cp) / o * 100 := by
  rcases op with _ | o
  · simp [analyzeBig, initResult]
  · simp only [analyzeBig]
    constructor
    · intro h
      split_ifs at h with h1 h2
      · exact ⟨o, rfl, h1.2, h2⟩
      · simp [initResult] at h
      · simp [initResult] at h
    · rintro ⟨o', ho, hlt, hth⟩
      have ho' : o = o' := by injection ho
      subst ho'
      rw [if_pos ⟨(lt_trans hcp hlt).ne', hlt⟩, if_pos hth]

lemma analyzeBig_eq_of_fire (A : PriceAnalyzer) (cp o : ℚ)
    (hlt : cp < o) (h0 : o ≠ 0)
    (hth : A.big_discount_threshold ≤ (o - cp) / o * 100) :
    analyzeBig A cp (some o) =
      { initResult with
          discount_percent := some ((o - cp) / o * 100)
          is_big_discount := true
          confidence := min ((o - cp) / o * 100 / 100) 1 } := by
  simp only [analyzeBig]
  rw [if_pos ⟨h0, hlt⟩, if_pos hth]

/-! Claim theorems about analyze_price. -/

/-- C2, counterexample: with default thresholds, current_price 5 is below
min_price_for_error 10, yet when the expected range (1, 2) is supplied
(max_expected * 2 = 4 is below the current price) the returned error kind
is price_too_high with confidence 0.6, not price_too_low with 0.9 — so
the claimed outcome does not hold regardless of expected_range. -/
theorem analyze_price_too_low_cex :
    (5:ℚ) < defaultAnalyzer.min_price_for_error ∧
    (analyze_price defaultAnalyzer 5 none none (some (1, 2))).error_type ≠
      some ErrorType.price_too_low ∧
    (analyze_price defaultAnalyzer 5 none none (some (1, 2))).confidence ≠
      9/10 ∧
    (analyze_price defaultAnalyzer 5 none none (some (1, 2))).error_type =
      some ErrorType.price_too_high ∧
    (analyze_price defaultAnalyzer 5 none none (some (1, 2))).confidence =
      6/10 := by
  norm_num [analyze_price, analyzeBig, analyzeErr, analyzeHigh,
    defaultAnalyzer, initResult]
  decide

/-- C2, amended: when current_price is below min_price_for_error,
analyze_price always reports is_price_error = true; the error kind is
price_too_low with confidence 0.9 for every expected_range whose
max_expected * 2 is not below current_price (in particular when no range
is supplied), but when a range with max_expected * 2 below current_price
is supplied, the later price-too-high rule overwrites the kind to
price_too_high with confidence 0.6. -/
theorem analyze_price_too_low_amended (A : PriceAnalyzer) (cp : ℚ)
    (op lp : Option ℚ) (er : Option (ℚ × ℚ))
    (h : cp < A.min_price_for_error) :
    (analyze_price A cp op lp er).is_price_error = true ∧
    ((∀ mn mx : ℚ, er = some (mn, mx) → cp ≤ mx * 2) →
      (analyze_price A cp op lp er).error_type =
        some ErrorType.price_too_low ∧
      (analyze_price A cp op lp er).confidence = 9/10) ∧
    (∀ mn mx : ℚ, er = some (mn, mx) → mx * 2 < cp →
      (analyze_price A cp op lp er).error_type =
        some ErrorType.price_too_high ∧
      (analyze_price A cp op lp er).confidence = 6/10) := by
  unfold analyze_price
  rw [analyzeErr_of_lt A cp lp er _ h]
  rcases er with _ | ⟨mn, mx⟩
  · exact ⟨rfl, fun _ => ⟨rfl, rfl⟩, fun mn mx he => nomatch he⟩
  · rcases le_or_lt cp (mx * 2) with hle | hgt
    · rw [analyzeHigh_some_le cp mn mx _ hle]
      refine ⟨rfl, fun _ => ⟨rfl, rfl⟩, ?_⟩
      intro mn' mx' he hgt'
      have hmx : mx = mx' := by
        have := congrArg (fun z => (Option.getD z (0, 0)).2) he
        simpa using this
      exact absurd hgt' (not_lt.mpr (hmx ▸ hle))
    · rw [analyzeHigh_some_gt cp mn mx _ hgt]
      refine ⟨rfl, ?_, fun _ _ _ _ => ⟨rfl, rfl⟩⟩
      intro hall
      exact absurd hgt (not_lt.mpr (hall mn mx rfl))

/-- C2, witness for the amended theorem at current_price 5 with no
expected range. -/
theorem analyze_price_too_low_amended_wit :
    (analyze_price defaultAnalyzer 5 none none none).error_type =
      some ErrorType.price_too_low ∧
    (analyze_price defaultAnalyzer 5 none none none).confidence = 9/10 :=
  (analyze_price_too_low_amended defaultAnalyzer 5 none none none
    (by norm_num [defaultAnalyzer])).2.1 (fun mn mx he => nomatch he)

/-- C3: for a positive current price, is_big_discount is set exactly when
an original price is present, exceeds the current price, and the discount
formula reaches the threshold; in that case discount_percent holds the
formula value and, when no error rule fired, confidence is
min(discount_percent / 100, 1); with no original price is_big_discount is
always false. -/
theorem analyze_price_big_discount_iff (A : PriceAnalyzer) (cp : ℚ)
    (op lp : Option ℚ) (er : Option (ℚ × ℚ)) (hcp : 0 < cp) :
    ((analyze_price A cp op lp er).is_big_discount = true ↔
      ∃ o, op = some o ∧ cp < o ∧
        A.big_discount_threshold ≤ (o - cp) / o * 100) ∧
    (∀ o, op = some o → cp < o →
      A.big_discount_threshold ≤ (o - cp) / o * 100 →
      (analyze_price A cp op lp er).discount_percent =
        some ((o - cp) / o * 100) ∧
      ((analyze_price A cp op lp er).is_price_error = false →
        (analyze_price A cp op lp er).confidence =
          min ((o - cp) / o * 100 / 100) 1)) ∧
    (op = none → (analyze_price A cp op lp er).is_big_discount = false) := by
  have hbig : (analyze_price A cp op lp er).is_big_discount =
      (analyzeBig A cp op).is_big_discount := by
    unfold analyze_price
    rw [analyzeHigh_is_big, analyzeErr_is_big]
  refine ⟨?_, ?_, ?_⟩
  · rw [hbig]
    exact analyzeBig_is_big_iff A cp op hcp
  · intro o ho hlt hth
    have h0 : o ≠ 0 := (lt_trans hcp hlt).ne'
    subst ho
    have hfire := analyzeBig_eq_of_fire A cp o hlt h0 hth
    constructor
    · unfold analyze_price
      rw [analyzeHigh_discount, analyzeErr_discount, hfire]
    · intro herr
      unfold analyze_price at herr ⊢
      have h2 := analyzeHigh_of_not_err cp er _ herr
      rw [h2] at herr ⊢
      have h3 := analyzeErr_of_not_err A cp lp er _ herr
      rw [h3, hfire]
  · intro ho
    subst ho
    rw [hbig]
    rfl

/-- C3, witness at scenario A: price 50 against original price 100 gives
a 50 percent big discount. -/
theorem analyze_price_big_discount_iff_wit :
    (analyze_price defaultAnalyzer 50 (some 100) none none).is_big_discount
      = true ∧
    (analyze_price defaultAnalyzer 50 (some 100) none none).discount_percent
      = some ((100 - 50) / 100 * 100) :=
  have h := analyze_price_big_discount_iff defaultAnalyzer 50 (some 100)
    none none (by norm_num)
  ⟨h.1.mpr ⟨100, rfl, by norm_num, by norm_num [defaultAnalyzer]⟩,
   (h.2.1 100 rfl (by norm_num) (by norm_num [defaultAnalyzer])).1⟩

/-- C8: with default thresholds, when the current price does not trigger
the too-low rule, no expected range is available, a last price is present,
the current price is under half of it, and the percentage drop exceeds
50, analyze_price reports a suspicious_drop error with confidence 0.7. -/
theorem analyze_price_suspicious_drop (cp lp : ℚ) (op : Option ℚ)
    (h1 : defaultAnalyzer.min_price_for_error ≤ cp)
    (h2 : cp < lp * defaultAnalyzer.price_error_threshold)
    (h3 : (lp - cp) / lp * 100 > 50) :
    (analyze_price defaultAnalyzer cp op (some lp) none).is_price_error =
      true ∧
    (analyze_price defaultAnalyzer cp op (some lp) none).error_type =
      some ErrorType.suspicious_drop ∧
    (analyze_price defaultAnalyzer cp op (some lp) none).confidence =
      7/10 := by
  have h1' : (10:ℚ) ≤ cp := h1
  have h2' : cp < lp * (1/2) := h2
  have hlp : lp ≠ 0 := by
    have : (0:ℚ) < lp := by linarith
    exact this.ne'
  unfold analyze_price
  rw [analyzeHigh_none]
  simp only [analyzeErr]
  rw [if_neg (not_lt.mpr h1), if_pos ⟨hlp, h2⟩, if_pos h3]
  exact ⟨rfl, rfl, rfl⟩

/-- C8, witness at scenario C: current price 120 after last price 300 is
a 60 percent drop, below half of the previous price. -/
theorem analyze_price_suspicious_drop_wit :
    (analyze_price defaultAnalyzer 120 none (some 300) none).error_type =
      some ErrorType.suspicious_drop ∧
    (analyze_price defaultAnalyzer 120 none (some 300) none).confidence =
      7/10 :=
  have h := analyze_price_suspicious_drop 120 300 none
    (by norm_num [defaultAnalyzer]) (by norm_num [defaultAnalyzer])
    (by norm_num)
  ⟨h.2.1, h.2.2⟩

/-- C9: the single confidence field holds the constant of the last error
rule that fired: whenever is_price_error is true the returned error kind
and confidence are one of the four rule pairs (price_too_low 0.9,
price_below_expected 0.8, suspicious_drop 0.7, price_too_high 0.6); the
price-too-high rule, whenever its condition holds, overwrites any earlier
error kind and confidence; and when a big discount also fired, its
min(discount/100, 1) confidence is overwritten by the error constant. -/
theorem analyze_price_error_confidence (A : PriceAnalyzer) (cp : ℚ)
    (op lp : Option ℚ) (er : Option (ℚ × ℚ)) :
    ((analyze_price A cp op lp er).is_price_error = true →
      ((analyze_price A cp op lp er).error_type =
          some ErrorType.price_too_low ∧
        (analyze_price A cp op lp er).confidence = 9/10) ∨
      ((analyze_price A cp op lp er).error_type =
          some ErrorType.price_below_expected ∧
        (analyze_price A cp op lp er).confidence = 8/10) ∨
      ((analyze_price A cp op lp er).error_type =
          some ErrorType.suspicious_drop ∧
        (analyze_price A cp op lp er).confidence = 7/10) ∨
      ((analyze_price A cp op lp er).error_type =
          some ErrorType.price_too_high ∧
        (analyze_price A cp op lp er).confidence = 6/10)) ∧
    (∀ mn mx : ℚ, er = some (mn, mx) → mx * 2 < cp →
      (analyze_price A cp op lp er).error_type =
        some ErrorType.price_too_high ∧
      (analyze_price A cp op lp er).confidence = 6/10) ∧
    ((analyze_price A cp op lp er).is_big_discount = true →
      (analyze_price A cp op lp er).is_price_error = true →
      (analyze_price A cp op lp er).confidence = 9/10 ∨
      (analyze_price A cp op lp er).confidence = 8/10 ∨
      (analyze_price A cp op lp er).confidence = 7/10 ∨
      (analyze_price A cp op lp er).confidence = 6/10) := by
  have key : (analyze_price A cp op lp er).is_price_error = true →
      ((analyze_price A cp op lp er).error_type =
          some ErrorType.price_too_low ∧
        (analyze_price A cp op lp er).confidence = 9/10) ∨
      ((analyze_price A cp op lp er).error_type =
          some ErrorType.price_below_expected ∧
        (analyze_price A cp op lp er).confidence = 8/10) ∨
      ((analyze_price A cp op lp er).error_type =
          some ErrorType.suspicious_drop ∧
        (analyze_price A cp op lp er).confidence = 7/10) ∨
      ((analyze_price A cp op lp er).error_type =
          some ErrorType.price_too_high ∧
        (analyze_price A cp op lp er).confidence = 6/10) := by
    intro herr
    unfold analyze_price at herr ⊢
    rcases analyzeHigh_cases cp er
        (analyzeErr A cp lp er (analyzeBig A cp op)) with hH | hH
    · rw [hH] at herr ⊢
      rcases analyzeErr_cases A cp lp er (analyzeBig A cp op) with
        hE | hE | hE | hE
      · rw [hE, analyzeBig_is_price_error] at herr
        simp at herr
      · rw [hE]
        exact Or.inl ⟨rfl, rfl⟩
      · rw [hE]
        exact Or.inr (Or.inl ⟨rfl, rfl⟩)
      · rw [hE]
        exact Or.inr (Or.inr (Or.inl ⟨rfl, rfl⟩))
    · rw [hH]
      exact Or.inr (Or.inr (Or.inr ⟨rfl, rfl⟩))
  refine ⟨key, ?_, ?_⟩
  · intro mn mx he hgt
    subst he
    unfold analyze_price
    rw [analyzeHigh_some_gt cp mn mx _ hgt]
    exact ⟨rfl, rfl⟩
  · intro _ herr
    rcases key herr with h | h | h | h
    · exact Or.inl h.2
    · exact Or.inr (Or.inl h.2)
    · exact Or.inr (Or.inr (Or.inl h.2))
    · exact Or.inr (Or.inr (Or.inr h.2))

/-- C9, witness: price 5 against original price 100 fires the big
discount rule with confidence 0.95, but the range (1, 2) fires the
price-too-high rule last, so the returned confidence is 0.6. -/
theorem analyze_price_error_confidence_wit :
    (analyze_price defaultAnalyzer 5 (some 100) none (some (1, 2))).error_type
      = some ErrorType.price_too_high ∧
    (analyze_price defaultAnalyzer 5 (some 100) none (some (1, 2))).confidence
      = 6/10 :=
  (analyze_price_error_confidence defaultAnalyzer 5 (some 100) none
    (some (1, 2))).2.1 1 2 rfl (by norm_num)

lemma strStarts_iff (n : List Char) :
    ∀ h : List Char, strStarts n h = true ↔ ∃ post, h = n ++ post := by
  induction n with
  | nil =>
    intro h
    simp [strStarts]
  | cons a as ih =>
    intro h
    cases h with
    | nil => simp [strStarts]
    | cons b bs =>
      simp only [strStarts, Bool.and_eq_true, beq_iff_eq, ih]
      constructor
      · rintro ⟨rfl, post, rfl⟩
        exact ⟨post, rfl⟩
      · rintro ⟨post, hpost⟩
        injection hpost with h1 h2
        exact ⟨h1.symm, post, h2⟩

lemma hasSub_iff (n : List Char) :
    ∀ h : List Char, hasSub n h = true ↔ SubstrOf n h := by
  intro h
  induction h with
  | nil =>
    simp only [hasSub, strStarts_iff, SubstrOf]
    constructor
    · rintro ⟨post, hp⟩
      exact ⟨[], post, by simpa using hp⟩
    · rintro ⟨pre, post, hp⟩
      have hp' := hp.symm
      rw [List.append_eq_nil, List.append_eq_nil] at hp'
      exact ⟨[], by simp [hp'.1.2]⟩
  | cons c rest ih =>
    simp only [hasSub, Bool.or_eq_true, strStarts_iff, ih, SubstrOf]
    constructor
    · rintro (⟨post, hp⟩ | ⟨pre, post, hp⟩)
      · exact ⟨[], post, by simpa using hp⟩
      · exact ⟨c :: pre, post, by simp [hp]⟩
    · rintro ⟨pre, post, hp⟩
      cases pre with
      | nil => exact Or.inl ⟨post, by simpa using hp⟩
      | cons p ps =>
        right
        rw [List.cons_append, List.cons_append] at hp
        injection hp with h1 h2
        exact ⟨ps, post, by simpa using h2⟩

lemma findRange_none (t : List Char) :
    ∀ tbl : List (List Char × ℚ × ℚ),
      findRange t tbl = none ↔ ∀ e ∈ tbl, ¬ SubstrOf e.1 t := by
  intro tbl
  induction tbl with
  | nil => simp [findRange]
  | cons e rest ih =>
    obtain ⟨kw, a, b⟩ := e
    simp only [findRange]
    split_ifs with hif
    · constructor
      · intro h
        exact absurd h (by simp)
      · intro h
        exact absurd ((hasSub_iff kw t).mp hif) (h (kw, a, b) (by simp))
    · rw [ih]
      constructor
      · intro h e' he'
        rcases List.mem_cons.mp he' with rfl | hmem
        · intro hs
          exact hif ((hasSub_iff kw t).mpr hs)
        · exact h e' hmem
      · intro h e' he'
        exact h e' (List.mem_cons_of_mem _ he')

lemma findRange_some (t : List Char) :
    ∀ (tbl : List (List Char × ℚ × ℚ)) (mn mx : ℚ),
      findRange t tbl = some (mn, mx) →
      ∃ pre rest kw, tbl = pre ++ (kw, mn, mx) :: rest ∧ SubstrOf kw t ∧
        ∀ e ∈ pre, ¬ SubstrOf e.1 t := by
  intro tbl
  induction tbl with
  | nil =>
    intro mn mx h
    exact absurd h (by simp [findRange])
  | cons e rest ih =>
    obtain ⟨kw, a, b⟩ := e
    intro mn mx h
    simp only [findRange] at h
    split_ifs at h with hif
    · injection h with h'
      rw [Prod.mk.injEq] at h'
      obtain ⟨rfl, rfl⟩ := h'
      exact ⟨[], rest, kw, rfl, (hasSub_iff kw t).mp hif, by simp⟩
    · obtain ⟨pre, rest', kw', htbl, hsub, hpre⟩ := ih mn mx h
      refine ⟨(kw, a, b) :: pre, rest', kw', by rw [htbl, List.cons_append],
        hsub, ?_⟩
      intro e' he'
      rcases List.mem_cons.mp he' with rfl | hmem
      · intro hs
        exact hif ((hasSub_iff kw t).mpr hs)
      · exact hpre e' hmem

/-- C7: get_expected_price_range lower-cases the title and returns the
range of the first keyword of its fixed table (in table order) that
occurs as a substring of the lowered title, and returns none exactly when
no keyword of the table occurs in it. -/
theorem get_expected_price_range_first_match (title : List Char) :
    (get_expected_price_range title = none ↔
      ∀ e ∈ price_ranges, ¬ SubstrOf e.1 (title.map Char.toLower)) ∧
    (∀ mn mx : ℚ, get_expected_price_range title = some (mn, mx) →
      ∃ pre rest kw, price_ranges = pre ++ (kw, mn, mx) :: rest ∧
        SubstrOf kw (title.map Char.toLower) ∧
        ∀ e ∈ pre, ¬ SubstrOf e.1 (title.map Char.toLower)) :=
  ⟨findRange_none (title.map Char.toLower) price_ranges,
   fun mn mx h => findRange_some (title.map Char.toLower) price_ranges mn mx h⟩

/-- C7, witness: the lowered title msi rtx 4070 gaming matches the
keyword rtx 4070, the eighth table entry, and none before it. -/
theorem get_expected_price_range_first_match_wit :
    ∃ pre rest kw, price_ranges = pre ++ (kw, 600, 900) :: rest ∧
      SubstrOf kw (("MSI RTX 4070 Gaming".toList).map Char.toLower) ∧
      ∀ e ∈ pre, ¬ SubstrOf e.1 (("MSI RTX 4070 Gaming".toList).map Char.toLower) :=
  (get_expected_price_range_first_match "MSI RTX 4070 Gaming".toList).2
    600 900 (by decide)

/-! Lemmas about the gates, the check_prices step and the row update. -/

lemma analyze_price_err_of_lt (A : PriceAnalyzer) (cp : ℚ)
    (op lp : Option ℚ) (er : Option (ℚ × ℚ))
    (h : cp < A.min_price_for_error) :
    (analyze_price A cp op lp er).is_price_error = true := by
  unfold analyze_price
  rw [analyzeErr_of_lt A cp lp er _ h]
  rcases analyzeHigh_cases cp er
      { analyzeBig A cp op with
          is_price_error := true
          error_type := some ErrorType.price_too_low
          confidence := 9/10 } with hH | hH <;> rw [hH]

lemma globalErrorGate_eq_none (now : ℤ) (s : List ErrorRecord)
    (a : String) (p c : ℚ) (et : ErrorType)
    (h : topRecentError now s = none) :
    globalErrorGate now s a p c et =
      (addErrorRecord s ⟨a, p, et, c, now⟩, true) := by
  unfold globalErrorGate
  rw [h]

lemma globalErrorGate_eq_some (now : ℤ) (s : List ErrorRecord)
    (a : String) (p c : ℚ) (et : ErrorType) (r : ErrorRecord)
    (h : topRecentError now s = some r) :
    globalErrorGate now s a p c et =
      if r.asin = a ∧ now - r.detected_at < 86400 then (s, false)
      else (addErrorRecord s ⟨a, p, et, c, now⟩, true) := by
  unfold globalErrorGate
  rw [h]

lemma globalDealGate_eq_none (now : ℤ) (s : List DealRecord)
    (a : String) (op cp dp : ℚ)
    (h : s.find? (fun x => x.asin == a) = none) :
    globalDealGate now s a op cp dp =
      (addDealRecord s ⟨a, op, cp, dp, now⟩, true) := by
  unfold globalDealGate
  rw [h]

lemma globalDealGate_eq_some (now : ℤ) (s : List DealRecord)
    (a : String) (op cp dp : ℚ) (r : DealRecord)
    (h : s.find? (fun x => x.asin == a) = some r) :
    globalDealGate now s a op cp dp =
      if now - r.detected_at < 86400 then (s, false)
      else (addDealRecord s ⟨a, op, cp, dp, now⟩, true) := by
  unfold globalDealGate
  rw [h]

lemma addErrorRecord_pairwise (s : List ErrorRecord) (r : ErrorRecord)
    (h : s.Pairwise (fun x y => x.asin ≠ y.asin)) :
    (addErrorRecord s r).Pairwise (fun x y => x.asin ≠ y.asin) := by
  unfold addErrorRecord
  refine List.pairwise_cons.mpr ⟨?_, ?_⟩
  · intro y hy
    have hne := List.of_mem_filter hy
    simp only [bne_iff_ne, ne_eq] at hne
    exact fun h' => hne (h'.symm)
  · exact h.sublist (List.filter_sublist s)

lemma addDealRecord_pairwise (s : List DealRecord) (r : DealRecord)
    (h : s.Pairwise (fun x y => x.asin ≠ y.asin)) :
    (addDealRecord s r).Pairwise (fun x y => x.asin ≠ y.asin) := by
  unfold addDealRecord
  refine List.pairwise_cons.mpr ⟨?_, ?_⟩
  · intro y hy
    have hne := List.of_mem_filter hy
    simp only [bne_iff_ne, ne_eq] at hne
    exact fun h' => hne (h'.symm)
  · exact h.sublist (List.filter_sublist s)

lemma checkProductStep_fst (A : PriceAnalyzer) (lp : Option ℚ)
    (info : ProductInfo) (cp : ℚ) (hcp : info.current_price = some cp) :
    (checkProductStep A lp info).1 = some cp := by
  rcases lp with _ | l <;> simp only [checkProductStep, hcp] <;>
    split_ifs <;> rfl

lemma checkProductStep_err (A : PriceAnalyzer) (lp : Option ℚ)
    (info : ProductInfo) (cp : ℚ) (hcp : info.current_price = some cp)
    (herr : (analyze_price A cp info.original_price lp
      (get_expected_price_range info.title)).is_price_error = true) :
    (checkProductStep A lp info).2 = some (Alert.priceError
      (analyze_price A cp info.original_price lp
        (get_expected_price_range info.title)).error_type) := by
  simp only [checkProductStep, hcp]
  rw [if_pos herr]

lemma update_lowest_of_some (row : ProductRow) (price l : ℚ)
    (hl : row.lowest_price = some l) (hne : l ≠ 0) :
    (update_product_price row price).lowest_price = some (min l price) := by
  simp [update_product_price, hl, hne]

lemma updateSeq_lowest_le (ps : List ℚ) :
    ∀ (row : ProductRow) (l : ℚ), (∀ q ∈ ps, 0 < q) →
      row.lowest_price = some l → 0 < l →
      ∃ l', (updateSeq row ps).lowest_price = some l' ∧ l' ≤ l ∧ 0 < l' := by
  induction ps with
  | nil =>
    intro row l _ hl hpos
    exact ⟨l, hl, le_refl l, hpos⟩
  | cons p rest ih =>
    intro row l hq hl hpos
    have hp : 0 < p := hq p (List.mem_cons_self p rest)
    have hstep : (update_product_price row p).lowest_price =
        some (min l p) := update_lowest_of_some row p l hl hpos.ne'
    obtain ⟨l', h1, h2, h3⟩ := ih (update_product_price row p) (min l p)
      (fun q hq' => hq q (List.mem_cons_of_mem p hq')) hstep
      (lt_min hpos hp)
    exact ⟨l', h1, le_trans h2 (min_le_left l p), h3⟩

/-! Claim theorems about the deduplication gates, the check_prices loop,
the category sweep and the stored lowest price. -/

/-- C1, counterexample: item A's price-error record was created 20
seconds before a second qualifying price-error event for A, yet because
the dedup query reads back only the single highest-confidence recent
record — here item B's — the second event is not suppressed: it is
recorded again (and counted towards notification) and the stored table
changes. -/
theorem dedup_suppression_cex :
    ((20:ℤ) - 0 < 86400) ∧
    (globalErrorGate 20
      [⟨"A", 5, ErrorType.price_too_low, 7/10, 0⟩,
       ⟨"B", 3, ErrorType.price_too_low, 9/10, 10⟩]
      "A" 5 (7/10) ErrorType.price_too_low).2 = true ∧
    (globalErrorGate 20
      [⟨"A", 5, ErrorType.price_too_low, 7/10, 0⟩,
       ⟨"B", 3, ErrorType.price_too_low, 9/10, 10⟩]
      "A" 5 (7/10) ErrorType.price_too_low).1 ≠
      [⟨"A", 5, ErrorType.price_too_low, 7/10, 0⟩,
       ⟨"B", 3, ErrorType.price_too_low, 9/10, 10⟩] := by
  refine ⟨by norm_num, ?_, ?_⟩
  · norm_num [globalErrorGate, topRecentError, addErrorRecord,
      List.filter, List.foldl]
    rw [if_neg (by decide)]
  · norm_num [globalErrorGate, topRecentError, addErrorRecord,
      List.filter, List.foldl]
    rw [if_neg (by decide)]
    simp

/-- C1, amended: the 24h suppression behaves as follows.  In the global
scan, a price-error event is suppressed exactly when the single
highest-confidence price-error record of the last two days carries the
same item and is younger than 86400 seconds; a big-discount event is
suppressed exactly when the item's own record is younger than 86400
seconds; suppression writes nothing.  The watched-item scan
(check_prices) applies no cooldown at all: any cycle whose analysis
flags an error notifies the watchers, and for a too-low price two
consecutive cycles with the same observation both notify.  At most one
record per item and kind exists at any time, since each write replaces
the item's previous record of that kind. -/
theorem alert_gate_amended :
    (∀ (now : ℤ) (s : List ErrorRecord) (a : String) (p c : ℚ)
        (et : ErrorType),
      ((globalErrorGate now s a p c et).2 = false ↔
        ∃ r, topRecentError now s = some r ∧ r.asin = a ∧
          now - r.detected_at < 86400) ∧
      ((globalErrorGate now s a p c et).2 = false →
        (globalErrorGate now s a p c et).1 = s)) ∧
    (∀ (now : ℤ) (s : List DealRecord) (a : String) (op cp dp : ℚ),
      ((globalDealGate now s a op cp dp).2 = false ↔
        ∃ r, s.find? (fun x => x.asin == a) = some r ∧
          now - r.detected_at < 86400) ∧
      ((globalDealGate now s a op cp dp).2 = false →
        (globalDealGate now s a op cp dp).1 = s)) ∧
    (∀ (A : PriceAnalyzer) (lp : Option ℚ) (info : ProductInfo) (cp : ℚ),
      info.current_price = some cp →
      (analyze_price A cp info.original_price lp
        (get_expected_price_range info.title)).is_price_error = true →
      (checkProductStep A lp info).2 = some (Alert.priceError
        (analyze_price A cp info.original_price lp
          (get_expected_price_range info.title)).error_type)) ∧
    (∀ (A : PriceAnalyzer) (lp : Option ℚ) (info : ProductInfo) (cp : ℚ),
      info.current_price = some cp → cp < A.min_price_for_error →
      (∃ et, (checkProductStep A lp info).2 =
        some (Alert.priceError et)) ∧
      (∃ et, (checkProductStep A (checkProductStep A lp info).1 info).2 =
        some (Alert.priceError et))) ∧
    (∀ (s : List ErrorRecord) (r : ErrorRecord),
      s.Pairwise (fun x y => x.asin ≠ y.asin) →
      (addErrorRecord s r).Pairwise (fun x y => x.asin ≠ y.asin)) ∧
    (∀ (s : List DealRecord) (r : DealRecord),
      s.Pairwise (fun x y => x.asin ≠ y.asin) →
      (addDealRecord s r).Pairwise (fun x y => x.asin ≠ y.asin)) := by
  refine ⟨?_, ?_, ?_, ?_,
    fun s r h => addErrorRecord_pairwise s r h,
    fun s r h => addDealRecord_pairwise s r h⟩
  · intro now s a p c et
    rcases htop : topRecentError now s with _ | r
    · rw [globalErrorGate_eq_none now s a p c et htop]
      constructor
      · constructor
        · intro h
          simp at h
        · rintro ⟨r', hr', h1, h2⟩
          exact absurd hr' (by simp)
      · intro h
        simp at h
    · rw [globalErrorGate_eq_some now s a p c et r htop]
      split_ifs with hc
      · exact ⟨⟨fun _ => ⟨r, rfl, hc.1, hc.2⟩, fun _ => rfl⟩, fun _ => rfl⟩
      · constructor
        · constructor
          · intro h
            simp at h
          · rintro ⟨r', hr', h1, h2⟩
            injection hr' with hr''
            subst hr''
            exact absurd ⟨h1, h2⟩ hc
        · intro h
          simp at h
  · intro now s a op cp dp
    rcases hfind : s.find? (fun x => x.asin == a) with _ | r
    · rw [globalDealGate_eq_none now s a op cp dp hfind]
      constructor
      · constructor
        · intro h
          simp at h
        · rintro ⟨r', hr', h2⟩
          have hno := hfind.symm.trans hr'
          exact absurd hno (by simp)
      · intro h
        simp at h
    · rw [globalDealGate_eq_some now s a op cp dp r hfind]
      split_ifs with hc
      · exact ⟨⟨fun _ => ⟨r, hfind, hc⟩, fun _ => rfl⟩, fun _ => rfl⟩
      · constructor
        · constructor
          · intro h
            simp at h
          · rintro ⟨r', hr', h2⟩
            have hrr := hfind.symm.trans hr'
            injection hrr with hr''
            subst hr''
            exact absurd h2 hc
        · intro h
          simp at h
  · intro A lp info cp hcp herr
    exact checkProductStep_err A lp info cp hcp herr
  · intro A lp info cp hcp hlt
    refine ⟨⟨_, checkProductStep_err A lp info cp hcp
      (analyze_price_err_of_lt A cp info.original_price lp
        (get_expected_price_range info.title) hlt)⟩, ?_⟩
    rw [checkProductStep_fst A lp info cp hcp]
    exact ⟨_, checkProductStep_err A (some cp) info cp hcp
      (analyze_price_err_of_lt A cp info.original_price (some cp)
        (get_expected_price_range info.title) hlt)⟩

/-- C1, witness for the amended theorem: an existing record for the same
item, 100 seconds old, suppresses a repeat big-discount event in the
global scan. -/
theorem alert_gate_amended_wit :
    (globalDealGate 100 [⟨"A", 100, 50, 50, 0⟩] "A" 100 50 50).2 = false :=
  (alert_gate_amended.2.1 100 [⟨"A", 100, 50, 50, 0⟩] "A" 100 50 50).1.mpr
    ⟨⟨"A", 100, 50, 50, 0⟩, by decide, by decide⟩

/-- C4: a qualifying event whose existing record for the same item and
kind is at least 86400 seconds old is treated like a fresh first event:
the global-scan gates record it anew — the stored record for the item
now carries the new detection time — and report the detection again.
For the price-error kind the dedup query reads back only one record;
when that record is the item's, its age decides as above, and when it is
another item's (or there is none), the event fires regardless, so an
item whose record has expired always re-triggers. -/
theorem gate_rearm_after_cooldown :
    (∀ (now : ℤ) (s : List DealRecord) (a : String) (op cp dp : ℚ)
        (r : DealRecord),
      s.find? (fun x => x.asin == a) = some r →
      86400 ≤ now - r.detected_at →
      (globalDealGate now s a op cp dp).2 = true ∧
      (globalDealGate now s a op cp dp).1.find? (fun x => x.asin == a) =
        some ⟨a, op, cp, dp, now⟩) ∧
    (∀ (now : ℤ) (s : List ErrorRecord) (a : String) (p c : ℚ)
        (et : ErrorType) (r : ErrorRecord),
      topRecentError now s = some r → r.asin = a →
      86400 ≤ now - r.detected_at →
      (globalErrorGate now s a p c et).2 = true ∧
      (globalErrorGate now s a p c et).1.find? (fun x => x.asin == a) =
        some ⟨a, p, et, c, now⟩) ∧
    (∀ (now : ℤ) (s : List ErrorRecord) (a : String) (p c : ℚ)
        (et : ErrorType) (r : ErrorRecord),
      topRecentError now s = some r → r.asin ≠ a →
      (globalErrorGate now s a p c et).2 = true ∧
      (globalErrorGate now s a p c et).1.find? (fun x => x.asin == a) =
        some ⟨a, p, et, c, now⟩) ∧
    (∀ (now : ℤ) (s : List ErrorRecord) (a : String) (p c : ℚ)
        (et : ErrorType),
      topRecentError now s = none →
      (globalErrorGate now s a p c et).2 = true ∧
      (globalErrorGate now s a p c et).1.find? (fun x => x.asin == a) =
        some ⟨a, p, et, c, now⟩) := by
  refine ⟨?_, ?_, ?_, ?_⟩
  · intro now s a op cp dp r hfind hold
    rw [globalDealGate_eq_some now s a op cp dp r hfind]
    rw [if_neg (not_lt.mpr hold)]
    refine ⟨rfl, ?_⟩
    unfold addDealRecord
    simp [List.find?]
  · intro now s a p c et r htop hasin hold
    rw [globalErrorGate_eq_some now s a p c et r htop]
    have hneg : ¬ (r.asin = a ∧ now - r.detected_at < 86400) :=
      fun h => (not_lt.mpr hold) h.2
    rw [if_neg hneg]
    refine ⟨rfl, ?_⟩
    unfold addErrorRecord
    simp [List.find?]
  · intro now s a p c et r htop hne
    rw [globalErrorGate_eq_some now s a p c et r htop]
    have hneg : ¬ (r.asin = a ∧ now - r.detected_at < 86400) :=
      fun h => hne h.1
    rw [if_neg hneg]
    refine ⟨rfl, ?_⟩
    unfold addErrorRecord
    simp [List.find?]
  · intro now s a p c et htop
    rw [globalErrorGate_eq_none now s a p c et htop]
    refine ⟨rfl, ?_⟩
    unfold addErrorRecord
    simp [List.find?]

/-- C4, witness: item A's big-deal record is 90000 seconds old, so a new
qualifying event is recorded and counted again. -/
theorem gate_rearm_after_cooldown_wit :
    ((86400:ℤ) ≤ 90000 - 0) ∧
    (globalDealGate 90000 [⟨"A", 100, 50, 50, 0⟩] "A" 100 40 60).2 = true :=
  ⟨by decide,
   (gate_rearm_after_cooldown.1 90000 [⟨"A", 100, 50, 50, 0⟩] "A" 100 40 60
     ⟨"A", 100, 50, 50, 0⟩ (by decide) (by decide)).1⟩

/-- C6: an ordinary price-drop alert is emitted only when the analysis
flagged neither a price error nor a big discount, a last-price baseline
exists, and the current price is strictly below it; the baseline is
overwritten with the observed price, so re-observing the same price on
the next cycle can never emit a price-drop alert again. -/
theorem price_drop_alert_conditions (A : PriceAnalyzer) (lp : Option ℚ)
    (info : ProductInfo) :
    ((checkProductStep A lp info).2 = some Alert.priceDrop →
      ∃ cp l, info.current_price = some cp ∧ lp = some l ∧ cp < l ∧
        (analyze_price A cp info.original_price lp
          (get_expected_price_range info.title)).is_price_error = false ∧
        (analyze_price A cp info.original_price lp
          (get_expected_price_range info.title)).is_big_discount = false) ∧
    (∀ cp, info.current_price = some cp →
      (checkProductStep A lp info).1 = some cp) ∧
    (∀ (cp : ℚ) (info2 : ProductInfo), info.current_price = some cp →
      info2.current_price = some cp →
      (checkProductStep A (checkProductStep A lp info).1 info2).2 ≠
        some Alert.priceDrop) := by
  refine ⟨?_, fun cp h => checkProductStep_fst A lp info cp h, ?_⟩
  · intro halert
    rcases hcp : info.current_price with _ | cp
    · simp only [checkProductStep, hcp] at halert
      exact absurd halert (by simp)
    · rcases lp with _ | l
      · simp only [checkProductStep, hcp] at halert
        split_ifs at halert with h1 h2 <;> simp at halert
      · simp only [checkProductStep, hcp] at halert
        split_ifs at halert with h1 h2 h3
        · simp at halert
        · simp at halert
        · simp only [Bool.not_eq_true] at h1 h2
          exact ⟨cp, l, rfl, rfl, h3.2.2, h1, h2⟩
  · intro cp info2 h1 h2
    rw [checkProductStep_fst A lp info cp h1]
    intro halert
    simp only [checkProductStep, h2] at halert
    split_ifs at halert with ha hb hc
    · simp at halert
    · simp at halert
    · exact absurd hc.2.2 (lt_irrefl cp)

/-- C6, witness: a watched product at baseline 100 re-scanned twice at
price 90 — the rearmed baseline is 90, so the second identical
observation yields no price-drop alert. -/
theorem price_drop_alert_conditions_wit :
    (checkProductStep defaultAnalyzer
      ((checkProductStep defaultAnalyzer (some 100)
        ⟨"Widget".toList, some 90, none⟩).1)
      ⟨"Widget".toList, some 90, none⟩).2 ≠ some Alert.priceDrop :=
  (price_drop_alert_conditions defaultAnalyzer (some 100)
    ⟨"Widget".toList, some 90, none⟩).2.2 90
    ⟨"Widget".toList, some 90, none⟩ rfl rfl

/-- C5: in a category sweep, a discounted product (positive
discount_percent) is classified as a new discount exactly when its asin
is not among the known products, or its discount strictly exceeds the
numeric discount recorded at the last sweep; an equal or lower discount
on a known item produces no alert. -/
theorem category_new_discount_iff (known : List (String × Option ℚ))
    (asin : String) (d : ℚ) (hd : 0 < d) :
    (known.lookup asin = none →
      categoryNewDiscount known asin (some d) = some true) ∧
    (∀ k : ℚ, known.lookup asin = some (some k) →
      (categoryNewDiscount known asin (some d) = some true ↔ k < d)) ∧
    (∀ k : ℚ, known.lookup asin = some (some k) → d ≤ k →
      categoryNewDiscount known asin (some d) = some false) := by
  have hcond : d ≠ 0 ∧ d > 0 := ⟨hd.ne', hd⟩
  refine ⟨?_, ?_, ?_⟩
  · intro h
    simp only [categoryNewDiscount]
    rw [if_pos hcond, h]
  · intro k h
    simp only [categoryNewDiscount]
    rw [if_pos hcond, h]
    simp
  · intro k h hle
    simp only [categoryNewDiscount]
    rw [if_pos hcond, h]
    simp only [Option.some.injEq, decide_eq_false_iff_not]
    exact not_lt.mpr hle

/-- C5, witness for scenario E: a known item whose recorded discount was
10 percent and now shows 35 percent is classified as a new discount. -/
theorem category_new_discount_iff_wit :
    categoryNewDiscount [("X42", some (10:ℚ))] "X42" (some 35) =
      some true :=
  ((category_new_discount_iff [("X42", some (10:ℚ))] "X42" 35
    (by norm_num)).2.1 10 (by decide)).mpr (by norm_num)

/-- C10: update_product_price stores in lowest_price the minimum of the
previously stored lowest price (the new price itself when none was
stored) and the new price; with positive prices the stored lowest is
non-increasing across any sequence of updates and never exceeds the
last_price written alongside it. -/
theorem update_product_price_lowest (row : ProductRow) (price : ℚ)
    (hp : 0 < price) (hrow : ∀ l, row.lowest_price = some l → 0 < l) :
    (update_product_price row price).last_price = some price ∧
    (update_product_price row price).lowest_price =
      some (min (row.lowest_price.getD price) price) ∧
    (∀ l, row.lowest_price = some l →
      (update_product_price row price).lowest_price = some (min l price) ∧
      min l price ≤ l) ∧
    (∀ l' q, (update_product_price row price).lowest_price = some l' →
      (update_product_price row price).last_price = some q → l' ≤ q) ∧
    (∀ ps : List ℚ, (∀ q ∈ ps, 0 < q) → ∀ l,
      row.lowest_price = some l →
      ∃ l', (updateSeq row ps).lowest_price = some l' ∧ l' ≤ l) := by
  refine ⟨rfl, ?_, ?_, ?_, ?_⟩
  · rcases hl : row.lowest_price with _ | l
    · simp [update_product_price, hl]
    · have hpos := hrow l hl
      simp [update_product_price, hl, hpos.ne']
  · intro l hl
    exact ⟨update_lowest_of_some row price l hl (hrow l hl).ne',
      min_le_left l price⟩
  · intro l' q h1 h2
    simp only [update_product_price, Option.some.injEq] at h1 h2
    subst h1
    subst h2
    exact min_le_right _ price
  · intro ps hq l hl
    obtain ⟨l', h1, h2, _⟩ := updateSeq_lowest_le ps row l hq hl (hrow l hl)
    exact ⟨l', h1, h2⟩

/-- C10, witness: a row with stored lowest price 60 updated with price 50
stores min 60 50, which does not exceed the previous lowest. -/
theorem update_product_price_lowest_wit :
    (update_product_price ⟨some 80, some 60⟩ 50).lowest_price =
      some (min (60:ℚ) 50) ∧ min (60:ℚ) 50 ≤ 60 :=
  (update_product_price_lowest ⟨some 80, some 60⟩ 50 (by norm_num)
    (fun l hl => by
      have h : (60:ℚ) = l := by simpa using hl
      rw [← h]
      norm_num)).2.2.1 60 rfl

end PcPriceTracker
